import Mathlib

/-!
Verification of the answer-resolution engine of rancher-dns (`answer.go`).

The Go code is shallowly embedded: maps become functions into `Option`,
the global default-TTL flag, the standard-library IP parser and the
random source become fields of an explicit environment `Env`, and the
external upstream resolver (`ResolveTryAll`, which lives outside
`answer.go`) is modelled from the spec as a fold over the host list
driven by an abstract per-server oracle.  The recursive resolver
`Addresses` is embedded fuel-indexed (`AddressesF`); fuel 22 is proved
sufficient for every input.  In addition to the records and the `ok`
flag the embedding returns a ghost trace of upstream-delegate
invocations, used to state reachability properties of the upstream
fallback; the trace does not influence the computed answer.
-/

namespace RancherDns

/-- Process-wide inputs of the engine that the Go code reads from globals or
external libraries: the default TTL flag, `net.ParseIP` (abstract: `none`
models an unparseable address, i.e. a `nil` `net.IP`), and the random source
used by `shuffle` (`rand i` stands for a sample used as `rand.Intn (i+1)`,
taken modulo `i+1`). -/
structure Env where
  defaultTtl : Nat
  parseIP : String → Option (List Nat)
  rand : Nat → Nat

/-- A resolved record (`dns.RR`).  The constructor fixes `Rrtype`
(`TypeA` / `TypeCNAME`); `Class` is always `INET` and is omitted.
An `a` record carries `net.ParseIP`'s result, which may be `none` (nil). -/
inductive RR where
  | a (name : String) (ttl : Nat) (ip : Option (List Nat))
  | cname (name : String) (ttl : Nat) (target : String)
deriving DecidableEq

/-- Ghost record of one invocation of the upstream delegate
(`ResolveTryAll` call site in `Addresses`): the client key and fqdn at the
call site, the host list passed, and the length of the ancestry chain. -/
structure UpCall where
  client : String
  fqdn : String
  hosts : List String
  depth : Nat
deriving DecidableEq

/-- Result of a fueled resolution: records, the `ok` flag, and the ghost
trace of upstream-delegate invocations in execution order. -/
abbrev AddrRes := List RR × Bool × List UpCall

/-- `const DEFAULT_KEY = "default"` -/
def DEFAULT_KEY : String := "default"

/-- `dns.TypeA` -/
def TypeA : Nat := 1

/-- `dns.TypeCNAME` -/
def TypeCNAME : Nat := 5

/-- `type RecordA struct { Ttl *uint32; Answer []string }` -/
structure RecordA where
  Ttl : Option Nat
  Answer : List String
deriving DecidableEq

/-- `type RecordCname struct { Ttl *uint32; Answer string }` -/
structure RecordCname where
  Ttl : Option Nat
  Answer : String
deriving DecidableEq

/-- `type ClientAnswers struct { Recurse []string; A map[string]RecordA;
Cname map[string]RecordCname }` (maps as functions into `Option`). -/
structure ClientAnswers where
  Recurse : List String
  A : String → Option RecordA
  Cname : String → Option RecordCname

/-- `type Answers map[string]ClientAnswers` -/
def Answers := String → Option ClientAnswers

/-- `dns.Fqdn`: append a trailing dot unless the name already ends in one
(escaped-dot handling of the dns library is irrelevant here and omitted). -/
def Fqdn (s : String) : String :=
  if s.data.getLast? = some '.' then s else s ++ "."

/-- One in-place swap of positions `i` and `j` (the parallel assignment
`items[i], items[j] = items[j], items[i]`); out-of-range indices leave the
list unchanged (they never occur in `shuffle`). -/
def swapIdx (l : List RR) (i j : Nat) : List RR :=
  match l[i]?, l[j]? with
  | some a, some b => (l.set i b).set j a
  | _, _ => l

/-- `func shuffle(items *[]dns.RR)`: for each index `i` swap position `i`
with position `rand.Intn(i+1)`. -/
def shuffle (rand : Nat → Nat) (items : List RR) : List RR :=
  (List.range items.length).foldl (fun acc i => swapIdx acc i (rand i % (i + 1))) items

/-- `func (answers *Answers) recurseHostsFor(clientIp string) []string` -/
def recurseHostsFor (answers : Answers) (clientIp : String) : List String :=
  match answers clientIp with
  | some client => if 0 < client.Recurse.length then client.Recurse else []
  | none => []

/-- `func (answers *Answers) RecurseHosts(clientIp string) []string`:
the client's recurse list (if non-empty) followed by the default tier's
recurse list (if non-empty). -/
def RecurseHosts (answers : Answers) (clientIp : String) : List String :=
  let hosts : List String := []
  let more := recurseHostsFor answers clientIp
  let hosts := if 0 < more.length then hosts ++ more else hosts
  let more := recurseHostsFor answers DEFAULT_KEY
  let hosts := if 0 < more.length then hosts ++ more else hosts
  hosts

/-- `func (answers *Answers) Matching(qtype uint16, clientIp string, fqdn
string) (records []dns.RR, ok bool)`.  For `TypeA` one record is built per
configured address string (TTL falling back to the default TTL, address as
returned by `net.ParseIP`) and the list is shuffled; for `TypeCNAME` a
single record is built. -/
def Matching (env : Env) (answers : Answers) (qtype : Nat) (clientIp fqdn : String) :
    List RR × Bool :=
  let records : List RR :=
    match answers clientIp with
    | none => []
    | some client =>
      if qtype = TypeA then
        match client.A fqdn with
        | some res =>
          if 0 < res.Answer.length then
            let ttl := res.Ttl.getD env.defaultTtl
            shuffle env.rand (res.Answer.map fun s => RR.a fqdn ttl (env.parseIP s))
          else []
        | none => []
      else if qtype = TypeCNAME then
        match client.Cname fqdn with
        | some res =>
          let ttl := res.Ttl.getD env.defaultTtl
          [RR.cname fqdn ttl res.Answer]
        | none => []
      else []
  if 0 < records.length then (records, true) else ([], false)

/-- Modelled from the spec: `ResolveTryAll` (defined outside `answer.go`)
"tries each address in order and returns the first success or an aggregate
failure"; `ro host fqdn` is the abstract single-server query. -/
def ResolveTryAll (ro : String → String → Option (List RR)) (fqdn : String) :
    List String → Option (List RR)
  | [] => none
  | h :: t =>
    match ro h fqdn with
    | some ans => some ans
    | none => ResolveTryAll ro fqdn t

/-- The tail of `Addresses` after the CNAME step (lines 109-131 of
`answer.go`): direct A lookup, default-tier fallback (`nextDefault`, a
thunk for the recursive call at the reserved key), upstream fallback
(guarded by a non-empty ancestry chain), terminal failure.  `tr` is the
ghost trace accumulated so far. -/
def addrAStep (env : Env) (ro : String → String → Option (List RR))
    (answers : Answers) (clientIp fqdn : String) (cnameParents : List RR)
    (nextDefault : Unit → Option AddrRes) (tr : List UpCall) : Option AddrRes :=
  let aRes := Matching env answers TypeA clientIp fqdn
  if aRes.2 = true ∧ 0 < aRes.1.length then
    some (shuffle env.rand aRes.1, true, tr)
  else if clientIp ≠ DEFAULT_KEY then
    match nextDefault () with
    | none => none
    | some (r, ok2, tr2) => some (r, ok2, tr ++ tr2)
  else if 0 < cnameParents.length then
    let hosts := RecurseHosts answers clientIp
    match ResolveTryAll ro fqdn hosts with
    | some ans => some (ans, true, tr ++ [⟨clientIp, fqdn, hosts, cnameParents.length⟩])
    | none => some ([], false, tr ++ [⟨clientIp, fqdn, hosts, cnameParents.length⟩])
  else
    some ([], false, tr)

/-- `func (answers *Answers) Addresses(clientIp string, fqdn string,
cnameParents []dns.RR) (records []dns.RR, ok bool)`, fuel-indexed (`none`
means out of fuel; fuel 22 is proved sufficient below): normalize the name,
depth-guard the ancestry chain at 10, follow a matching CNAME (failing on
an exact self-loop, prepending the CNAME on success, falling through on
failure), then `addrAStep`. -/
def AddressesF (env : Env) (ro : String → String → Option (List RR)) (answers : Answers) :
    Nat → String → String → List RR → Option AddrRes
  | 0, _, _, _ => none
  | fuel + 1, clientIp, fqdn0, cnameParents =>
    let fqdn := Fqdn fqdn0
    if 10 ≤ cnameParents.length then
      some ([], false, [])
    else
      match Matching env answers TypeCNAME clientIp fqdn with
      | (RR.cname cn ct ctarget :: _, true) =>
        if Fqdn ctarget = fqdn then
          some ([], false, [])
        else
          match AddressesF env ro answers fuel clientIp (Fqdn ctarget)
              (cnameParents ++ [RR.cname cn ct ctarget]) with
          | none => none
          | some (children, cok, ctr) =>
            if cok = true ∧ 0 < children.length then
              some (RR.cname cn ct ctarget :: children, true, ctr)
            else
              addrAStep env ro answers clientIp fqdn cnameParents
                (fun _ => AddressesF env ro answers fuel DEFAULT_KEY fqdn []) ctr
      | _ =>
        addrAStep env ro answers clientIp fqdn cnameParents
          (fun _ => AddressesF env ro answers fuel DEFAULT_KEY fqdn []) []

/-- The public resolver: `AddressesF` at the sufficient fuel 22, ghost
trace erased. -/
def Addresses (env : Env) (ro : String → String → Option (List RR))
    (answers : Answers) (clientIp fqdn : String) (cnameParents : List RR) :
    List RR × Bool :=
  match AddressesF env ro answers 22 clientIp fqdn cnameParents with
  | some (r, ok, _) => (r, ok)
  | none => ([], false)

/-- Termination measure for `Addresses`: the default tier dominates the
chain component, which counts remaining CNAME hops before the depth guard. -/
def addrMeasure (clientIp : String) (cnameParents : List RR) : Nat :=
  (if clientIp = DEFAULT_KEY then 0 else 11) + (10 - min cnameParents.length 10)

/-- Outcome of loading the answers file (`ReadAnswersFile`). -/
inductive LoadError where
  | ioError
  | parseError
deriving DecidableEq

/-- Outcome of `ioutil.ReadFile` as seen through `os.IsNotExist`. -/
inductive ReadFileResult where
  | ok (data : String)
  | errNotExist
  | errOther
deriving DecidableEq

/-- `func ReadAnswersFile(path string) (out Answers, err error)`: a missing
file yields an empty store and no error, any other read failure is an I/O
error, and a document `json.Unmarshal` (the abstract `unmarshal`) rejects
is a parse error. -/
def ReadAnswersFile (unmarshal : String → Option Answers) (read : ReadFileResult) :
    Except LoadError Answers :=
  match read with
  | .errNotExist => .ok (fun _ => none)
  | .errOther => .error .ioError
  | .ok data =>
    match unmarshal data with
    | some out => .ok out
    | none => .error .parseError

/-! Concrete instances used to instantiate the general theorems. -/

/-- A concrete environment: default TTL 600, no string parses as an IP,
randomness constantly 0 (so `shuffle` is the identity permutation choice). -/
def env0 : Env := ⟨600, fun _ => none, fun _ => 0⟩

/-- An environment whose parser accepts exactly `"1.2.3.4"`. -/
def envP : Env := ⟨600, fun s => if s = "1.2.3.4" then some [1, 2, 3, 4] else none, fun _ => 0⟩

/-- An upstream oracle whose every server fails. -/
def ro0 : String → String → Option (List RR) := fun _ _ => none

/-- An upstream oracle whose every server answers with one A record. -/
def ro1 : String → String → Option (List RR) := fun _ _ => some [RR.a "up." 1 none]

/-- The empty store. -/
def emptyAns : Answers := fun _ => none

/-- A CNAME table built from (name, target) pairs, all with default TTL. -/
def cnameTable (pairs : List (String × String)) : String → Option RecordCname :=
  fun n => (pairs.find? fun p => p.1 = n).map fun p => ⟨none, p.2⟩

/-- Store with a chain of exactly 10 distinct CNAME hops under the default
tier, no A records, no upstream resolvers. -/
def chain10 : Answers := fun k =>
  if k = DEFAULT_KEY then
    some ⟨[], fun _ => none,
      cnameTable [("c0.", "c1."), ("c1.", "c2."), ("c2.", "c3."), ("c3.", "c4."),
        ("c4.", "c5."), ("c5.", "c6."), ("c6.", "c7."), ("c7.", "c8."),
        ("c8.", "c9."), ("c9.", "c10.")]⟩
  else none

/-- Store with a chain of 9 CNAME hops whose final target `"c9."` has an A
entry, under the default tier. -/
def chain9 : Answers := fun k =>
  if k = DEFAULT_KEY then
    some ⟨[],
      fun n => if n = "c9." then some ⟨none, ["1.2.3.4"]⟩ else none,
      cnameTable [("c0.", "c1."), ("c1.", "c2."), ("c2.", "c3."), ("c3.", "c4."),
        ("c4.", "c5."), ("c5.", "c6."), ("c6.", "c7."), ("c7.", "c8."),
        ("c8.", "c9.")]⟩
  else none

/-- Store whose default tier maps `"x."` to itself by CNAME while also
holding an A entry for `"x."` and an upstream resolver. -/
def storeC2 : Answers := fun k =>
  if k = DEFAULT_KEY then
    some ⟨["8.8.8.8"],
      fun n => if n = "x." then some ⟨none, ["1.2.3.4"]⟩ else none,
      fun n => if n = "x." then some ⟨none, "x."⟩ else none⟩
  else none

/-- Store whose default tier maps `"x."` by CNAME to the unresolvable
`"y."` while also holding an A entry for `"x."` itself. -/
def storeC3 : Answers := fun k =>
  if k = DEFAULT_KEY then
    some ⟨[],
      fun n => if n = "x." then some ⟨none, ["1.2.3.4"]⟩ else none,
      fun n => if n = "x." then some ⟨none, "y."⟩ else none⟩
  else none

/-- The store of the spec's upstream-delegation example:
`default.cname["website."] = "www."`, no A records, `default.recurse =
["8.8.8.8"]`. -/
def store5 : Answers := fun k =>
  if k = DEFAULT_KEY then
    some ⟨["8.8.8.8"], fun _ => none, fun n => if n = "website." then some ⟨none, "www."⟩ else none⟩
  else none

/-- Store whose default tier has an A entry for `"x."` listing one
parseable and one unparseable address string, with TTL 42. -/
def storeC10 : Answers := fun k =>
  if k = DEFAULT_KEY then
    some ⟨[], fun n => if n = "x." then some ⟨some 42, ["1.2.3.4", "bogus"]⟩ else none,
      fun _ => none⟩
  else none

/-! Helper lemmas. -/

theorem Fqdn_idem (s : String) : Fqdn (Fqdn s) = Fqdn s := by
  by_cases h : s.data.getLast? = some '.'
  · simp [Fqdn, h]
  · have h2 : (s ++ ".").data.getLast? = some '.' := by
      rw [String.data_append]
      exact List.getLast?_concat _
    simp [Fqdn, h, h2]

theorem cons_set_perm {t : List RR} {k : Nat} {x : RR} (y : RR) (h : t[k]? = some x) :
    (x :: t.set k y).Perm (y :: t) := by
  have hk : k < t.length := by
    by_contra hk
    rw [List.getElem?_eq_none (Nat.le_of_not_lt hk)] at h
    exact Option.noConfusion h
  have hx : t[k] = x := by
    rw [List.getElem?_eq_getElem hk] at h
    exact Option.some.inj h
  have ht : t = t.take k ++ x :: t.drop (k + 1) := by
    conv_lhs => rw [← List.take_append_drop k t, List.drop_eq_getElem_cons hk, hx]
  have hset : t.set k y = t.take k ++ y :: t.drop (k + 1) :=
    List.set_eq_take_cons_drop y hk
  rw [hset]
  refine ((List.perm_middle).cons x).trans (.trans (.swap y x _) ?_)
  exact ((List.perm_middle).symm.cons y).trans (by rw [← ht])

theorem swap_set_perm :
    ∀ (l : List RR) (i j : Nat) (a b : RR), l[i]? = some a → l[j]? = some b →
      ((l.set i b).set j a).Perm l
  | [], _, _, _, _, h1, _ => by simp at h1
  | c :: t, 0, 0, a, b, h1, h2 => by
    simp only [List.getElem?_cons_zero, Option.some.injEq] at h1
    simp [← h1]
  | c :: t, 0, j + 1, a, b, h1, h2 => by
    simp only [List.getElem?_cons_zero, Option.some.injEq] at h1
    simp only [List.getElem?_cons_succ] at h2
    simpa [← h1] using cons_set_perm a h2
  | c :: t, i + 1, 0, a, b, h1, h2 => by
    simp only [List.getElem?_cons_zero, Option.some.injEq] at h2
    simp only [List.getElem?_cons_succ] at h1
    simpa [← h2] using cons_set_perm b h1
  | c :: t, i + 1, j + 1, a, b, h1, h2 => by
    simp only [List.getElem?_cons_succ] at h1 h2
    simpa using (swap_set_perm t i j a b h1 h2).cons c

theorem swapIdx_perm (l : List RR) (i j : Nat) : (swapIdx l i j).Perm l := by
  unfold swapIdx
  cases h1 : l[i]? with
  | none => simp
  | some a =>
    cases h2 : l[j]? with
    | none => simp
    | some b => exact swap_set_perm l i j a b h1 h2

theorem foldl_swapIdx_perm (r : Nat → Nat) :
    ∀ (idxs : List Nat) (acc : List RR),
      (idxs.foldl (fun a i => swapIdx a i (r i % (i + 1))) acc).Perm acc
  | [], _ => .refl _
  | i :: t, acc =>
    (foldl_swapIdx_perm r t (swapIdx acc i (r i % (i + 1)))).trans (swapIdx_perm acc i _)

theorem shuffle_perm (rand : Nat → Nat) (l : List RR) : (shuffle rand l).Perm l :=
  foldl_swapIdx_perm rand (List.range l.length) l

theorem shuffle_length (rand : Nat → Nat) (l : List RR) :
    (shuffle rand l).length = l.length :=
  (shuffle_perm rand l).length_eq

theorem mem_shuffle (rand : Nat → Nat) (l : List RR) (x : RR) :
    x ∈ shuffle rand l ↔ x ∈ l :=
  (shuffle_perm rand l).mem_iff

theorem Matching_client_none (env : Env) (answers : Answers) (qtype : Nat)
    (clientIp fqdn : String) (h : answers clientIp = none) :
    Matching env answers qtype clientIp fqdn = ([], false) := by
  simp [Matching, h]

theorem Matching_cname_some (env : Env) (answers : Answers) (clientIp fqdn : String)
    (client : ClientAnswers) (res : RecordCname)
    (h1 : answers clientIp = some client) (h2 : client.Cname fqdn = some res) :
    Matching env answers TypeCNAME clientIp fqdn =
      ([RR.cname fqdn (res.Ttl.getD env.defaultTtl) res.Answer], true) := by
  simp [Matching, TypeA, TypeCNAME, h1, h2]

theorem Matching_cname_none (env : Env) (answers : Answers) (clientIp fqdn : String)
    (client : ClientAnswers)
    (h1 : answers clientIp = some client) (h2 : client.Cname fqdn = none) :
    Matching env answers TypeCNAME clientIp fqdn = ([], false) := by
  simp [Matching, TypeA, TypeCNAME, h1, h2]

theorem Matching_a_some (env : Env) (answers : Answers) (clientIp fqdn : String)
    (client : ClientAnswers) (res : RecordA)
    (h1 : answers clientIp = some client) (h2 : client.A fqdn = some res)
    (h3 : 0 < res.Answer.length) :
    Matching env answers TypeA clientIp fqdn =
      (shuffle env.rand
        (res.Answer.map fun s => RR.a fqdn (res.Ttl.getD env.defaultTtl) (env.parseIP s)),
       true) := by
  have hlen : 0 < (shuffle env.rand
      (res.Answer.map fun s =>
        RR.a fqdn (res.Ttl.getD env.defaultTtl) (env.parseIP s))).length := by
    rw [shuffle_length, List.length_map]; exact h3
  simp [Matching, TypeA, h1, h2, h3, hlen]

theorem Matching_a_none (env : Env) (answers : Answers) (clientIp fqdn : String)
    (client : ClientAnswers)
    (h1 : answers clientIp = some client) (h2 : client.A fqdn = none) :
    Matching env answers TypeA clientIp fqdn = ([], false) := by
  simp [Matching, TypeA, h1, h2]

/-- The property every ghost upstream-invocation record satisfies: the call
site is at the reserved default key with a non-empty ancestry chain. -/
def UpCallOk (u : UpCall) : Prop := u.client = DEFAULT_KEY ∧ 0 < u.depth

theorem addrAStep_isSome (env : Env) (ro : String → String → Option (List RR))
    (answers : Answers) (clientIp fqdn : String) (cnameParents : List RR)
    (nextDefault : Unit → Option AddrRes) (tr : List UpCall)
    (hnext : clientIp ≠ DEFAULT_KEY → (nextDefault ()).isSome) :
    (addrAStep env ro answers clientIp fqdn cnameParents nextDefault tr).isSome := by
  simp only [addrAStep]
  by_cases h1 : (Matching env answers TypeA clientIp fqdn).2 = true ∧
      0 < (Matching env answers TypeA clientIp fqdn).1.length
  · rw [if_pos h1]; simp
  · rw [if_neg h1]
    by_cases h2 : clientIp ≠ DEFAULT_KEY
    · rw [if_pos h2]
      have := hnext h2
      cases hn : nextDefault () with
      | none => rw [hn] at this; simp at this
      | some r => obtain ⟨r1, r2, r3⟩ := r; simp
    · rw [if_neg h2]
      by_cases h3 : 0 < cnameParents.length
      · rw [if_pos h3]
        cases hr : ResolveTryAll ro fqdn (RecurseHosts answers clientIp) <;> simp
      · rw [if_neg h3]; simp

theorem addrAStep_next_mono (env : Env) (ro : String → String → Option (List RR))
    (answers : Answers) (clientIp fqdn : String) (cnameParents : List RR)
    (nextDefault nextDefault' : Unit → Option AddrRes) (tr : List UpCall) (res : AddrRes)
    (hmono : ∀ r, nextDefault () = some r → nextDefault' () = some r)
    (h : addrAStep env ro answers clientIp fqdn cnameParents nextDefault tr = some res) :
    addrAStep env ro answers clientIp fqdn cnameParents nextDefault' tr = some res := by
  simp only [addrAStep] at h ⊢
  by_cases h1 : (Matching env answers TypeA clientIp fqdn).2 = true ∧
      0 < (Matching env answers TypeA clientIp fqdn).1.length
  · rw [if_pos h1] at h ⊢; exact h
  · rw [if_neg h1] at h ⊢
    by_cases h2 : clientIp ≠ DEFAULT_KEY
    · rw [if_pos h2] at h ⊢
      cases hn : nextDefault () with
      | none => rw [hn] at h; exact absurd h (by simp)
      | some r =>
        rw [hn] at h
        rw [hmono r hn]
        exact h
    · rw [if_neg h2] at h ⊢; exact h

theorem addrAStep_trace (env : Env) (ro : String → String → Option (List RR))
    (answers : Answers) (clientIp fqdn : String) (cnameParents : List RR)
    (nextDefault : Unit → Option AddrRes) (tr : List UpCall) (res : AddrRes)
    (h : addrAStep env ro answers clientIp fqdn cnameParents nextDefault tr = some res)
    (htr : ∀ u ∈ tr, UpCallOk u)
    (hnext : ∀ r, nextDefault () = some r → ∀ u ∈ r.2.2, UpCallOk u) :
    ∀ u ∈ res.2.2, UpCallOk u := by
  simp only [addrAStep] at h
  by_cases h1 : (Matching env answers TypeA clientIp fqdn).2 = true ∧
      0 < (Matching env answers TypeA clientIp fqdn).1.length
  · rw [if_pos h1] at h
    cases h
    exact htr
  · rw [if_neg h1] at h
    by_cases h2 : clientIp ≠ DEFAULT_KEY
    · rw [if_pos h2] at h
      cases hn : nextDefault () with
      | none => rw [hn] at h; exact absurd h (by simp)
      | some r =>
        obtain ⟨r1, r2, r3⟩ := r
        rw [hn] at h
        cases h
        intro u hu
        rcases List.mem_append.mp hu with hu | hu
        · exact htr u hu
        · exact hnext _ hn u hu
    · rw [if_neg h2] at h
      have h2' : clientIp = DEFAULT_KEY := by
        by_contra hc; exact h2 hc
      by_cases h3 : 0 < cnameParents.length
      · rw [if_pos h3] at h
        cases hr : ResolveTryAll ro fqdn (RecurseHosts answers clientIp) with
        | none =>
          rw [hr] at h
          cases h
          intro u hu
          rcases List.mem_append.mp hu with hu | hu
          · exact htr u hu
          · rcases List.mem_singleton.mp hu with rfl
            exact ⟨h2', h3⟩
        | some ans =>
          rw [hr] at h
          cases h
          intro u hu
          rcases List.mem_append.mp hu with hu | hu
          · exact htr u hu
          · rcases List.mem_singleton.mp hu with rfl
            exact ⟨h2', h3⟩
      · rw [if_neg h3] at h
        cases h
        exact htr

theorem addrMeasure_append_lt (c : String) (p : List RR) (x : RR) (h : p.length < 10) :
    addrMeasure c (p ++ [x]) < addrMeasure c p := by
  simp only [addrMeasure, List.length_append, List.length_cons, List.length_nil]
  have h1 : min (p.length + (0 + 1)) 10 = p.length + (0 + 1) := Nat.min_eq_left (by omega)
  have h2 : min p.length 10 = p.length := Nat.min_eq_left (by omega)
  rw [h1, h2]
  omega

theorem addrMeasure_default_nil : addrMeasure DEFAULT_KEY [] = 10 := by
  simp [addrMeasure]

theorem addrMeasure_ne_default (c : String) (p : List RR) (h : c ≠ DEFAULT_KEY) :
    11 ≤ addrMeasure c p := by
  simp only [addrMeasure, if_neg h]
  exact Nat.le_add_right 11 _

theorem addrMeasure_le (c : String) (p : List RR) : addrMeasure c p ≤ 21 := by
  have hs : 10 - min p.length 10 ≤ 10 := Nat.sub_le _ _
  unfold addrMeasure
  split <;> omega

theorem AddressesF_norm (env : Env) (ro : String → String → Option (List RR))
    (answers : Answers) (fuel : Nat) (clientIp fqdn : String) (cnameParents : List RR) :
    AddressesF env ro answers (fuel + 1) clientIp fqdn cnameParents =
      AddressesF env ro answers (fuel + 1) clientIp (Fqdn fqdn) cnameParents := by
  rw [AddressesF.eq_2, AddressesF.eq_2, Fqdn_idem]

theorem AddressesF_mono (env : Env) (ro : String → String → Option (List RR))
    (answers : Answers) :
    ∀ fuel clientIp fqdn cnameParents res,
      AddressesF env ro answers fuel clientIp fqdn cnameParents = some res →
      AddressesF env ro answers (fuel + 1) clientIp fqdn cnameParents = some res := by
  intro fuel
  induction fuel with
  | zero =>
    intro c f p res h
    rw [AddressesF.eq_1] at h
    exact Option.noConfusion h
  | succ n ih =>
    intro c f p res h
    rw [AddressesF.eq_2] at h
    rw [AddressesF.eq_2]
    by_cases hg : 10 ≤ p.length
    · rw [if_pos hg] at h ⊢; exact h
    · rw [if_neg hg] at h ⊢
      rcases hm : Matching env answers TypeCNAME c (Fqdn f) with ⟨ms, mok⟩
      have hstep : ∀ tr, addrAStep env ro answers c (Fqdn f) p
            (fun _ => AddressesF env ro answers n DEFAULT_KEY (Fqdn f) []) tr = some res →
          addrAStep env ro answers c (Fqdn f) p
            (fun _ => AddressesF env ro answers (n + 1) DEFAULT_KEY (Fqdn f) []) tr = some res := by
        intro tr
        exact addrAStep_next_mono env ro answers c (Fqdn f) p _ _ tr res
          (fun r hr => ih DEFAULT_KEY (Fqdn f) [] r hr)
      rw [hm] at h
      cases mok with
      | false =>
        cases ms with
        | nil => exact hstep [] h
        | cons hd tl =>
          cases hd with
          | a an at' aip => exact hstep [] h
          | cname cn ct ctgt => exact hstep [] h
      | true =>
        cases ms with
        | nil => exact hstep [] h
        | cons hd tl =>
          cases hd with
          | a an at' aip => exact hstep [] h
          | cname cn ct ctgt =>
            dsimp only at h ⊢
            by_cases hloop : Fqdn ctgt = Fqdn f
            · rw [if_pos hloop] at h ⊢; exact h
            · rw [if_neg hloop] at h ⊢
              cases ho : AddressesF env ro answers n c (Fqdn ctgt) (p ++ [RR.cname cn ct ctgt]) with
              | none =>
                rw [ho] at h
                exact Option.noConfusion h
              | some r =>
                obtain ⟨ch, cok, ctr⟩ := r
                rw [ho] at h
                rw [ih c (Fqdn ctgt) (p ++ [RR.cname cn ct ctgt]) (ch, cok, ctr) ho]
                dsimp only at h ⊢
                by_cases hs : cok = true ∧ 0 < ch.length
                · rw [if_pos hs] at h ⊢; exact h
                · rw [if_neg hs] at h ⊢
                  exact hstep ctr h

theorem AddressesF_mono_le (env : Env) (ro : String → String → Option (List RR))
    (answers : Answers) (fuel fuel' : Nat) (clientIp fqdn : String)
    (cnameParents : List RR) (res : AddrRes) (hle : fuel ≤ fuel')
    (h : AddressesF env ro answers fuel clientIp fqdn cnameParents = some res) :
    AddressesF env ro answers fuel' clientIp fqdn cnameParents = some res := by
  induction hle with
  | refl => exact h
  | step _ ih => exact AddressesF_mono env ro answers _ clientIp fqdn cnameParents res ih

theorem AddressesF_isSome (env : Env) (ro : String → String → Option (List RR))
    (answers : Answers) :
    ∀ fuel clientIp fqdn cnameParents, addrMeasure clientIp cnameParents < fuel →
      (AddressesF env ro answers fuel clientIp fqdn cnameParents).isSome := by
  intro fuel
  induction fuel with
  | zero =>
    intro c f p h
    exact absurd h (Nat.not_lt_zero _)
  | succ n ih =>
    intro c f p h
    rw [AddressesF.eq_2]
    by_cases hg : 10 ≤ p.length
    · rw [if_pos hg]; simp
    · rw [if_neg hg]
      have hlen : p.length < 10 := Nat.lt_of_not_le hg
      have hle : addrMeasure c p ≤ n := Nat.lt_succ_iff.mp h
      have hnext : c ≠ DEFAULT_KEY →
          (AddressesF env ro answers n DEFAULT_KEY (Fqdn f) []).isSome := by
        intro hc
        apply ih
        have h11 : 11 ≤ addrMeasure c p := addrMeasure_ne_default c p hc
        rw [addrMeasure_default_nil]
        omega
      rcases hm : Matching env answers TypeCNAME c (Fqdn f) with ⟨ms, mok⟩
      have hstep : ∀ tr, (addrAStep env ro answers c (Fqdn f) p
          (fun _ => AddressesF env ro answers n DEFAULT_KEY (Fqdn f) []) tr).isSome :=
        fun tr => addrAStep_isSome env ro answers c (Fqdn f) p _ tr hnext
      cases mok with
      | false =>
        cases ms with
        | nil => exact hstep []
        | cons hd tl =>
          cases hd with
          | a an at' aip => exact hstep []
          | cname cn ct ctgt => exact hstep []
      | true =>
        cases ms with
        | nil => exact hstep []
        | cons hd tl =>
          cases hd with
          | a an at' aip => exact hstep []
          | cname cn ct ctgt =>
            dsimp only
            by_cases hloop : Fqdn ctgt = Fqdn f
            · rw [if_pos hloop]; simp
            · rw [if_neg hloop]
              have hrec : (AddressesF env ro answers n c (Fqdn ctgt)
                  (p ++ [RR.cname cn ct ctgt])).isSome := by
                apply ih
                have := addrMeasure_append_lt c p (RR.cname cn ct ctgt) hlen
                omega
              cases ho : AddressesF env ro answers n c (Fqdn ctgt)
                  (p ++ [RR.cname cn ct ctgt]) with
              | none => rw [ho] at hrec; exact absurd hrec (by simp)
              | some r =>
                obtain ⟨ch, cok, ctr⟩ := r
                dsimp only
                by_cases hs : cok = true ∧ 0 < ch.length
                · rw [if_pos hs]; simp
                · rw [if_neg hs]
                  exact hstep ctr

theorem AddressesF_trace (env : Env) (ro : String → String → Option (List RR))
    (answers : Answers) :
    ∀ fuel clientIp fqdn cnameParents res,
      AddressesF env ro answers fuel clientIp fqdn cnameParents = some res →
      ∀ u ∈ res.2.2, UpCallOk u := by
  intro fuel
  induction fuel with
  | zero =>
    intro c f p res h
    rw [AddressesF.eq_1] at h
    exact Option.noConfusion h
  | succ n ih =>
    intro c f p res h
    rw [AddressesF.eq_2] at h
    by_cases hg : 10 ≤ p.length
    · rw [if_pos hg] at h
      cases h
      simp
    · rw [if_neg hg] at h
      rcases hm : Matching env answers TypeCNAME c (Fqdn f) with ⟨ms, mok⟩
      have hstep : ∀ tr, (∀ u ∈ tr, UpCallOk u) →
          addrAStep env ro answers c (Fqdn f) p
            (fun _ => AddressesF env ro answers n DEFAULT_KEY (Fqdn f) []) tr = some res →
          ∀ u ∈ res.2.2, UpCallOk u := by
        intro tr htr hres
        exact addrAStep_trace env ro answers c (Fqdn f) p _ tr res hres htr
          (fun r hr => ih DEFAULT_KEY (Fqdn f) [] r hr)
      rw [hm] at h
      cases mok with
      | false =>
        cases ms with
        | nil => exact hstep [] (by simp) h
        | cons hd tl =>
          cases hd with
          | a an at' aip => exact hstep [] (by simp) h
          | cname cn ct ctgt => exact hstep [] (by simp) h
      | true =>
        cases ms with
        | nil => exact hstep [] (by simp) h
        | cons hd tl =>
          cases hd with
          | a an at' aip => exact hstep [] (by simp) h
          | cname cn ct ctgt =>
            dsimp only at h
            by_cases hloop : Fqdn ctgt = Fqdn f
            · rw [if_pos hloop] at h
              cases h
              simp
            · rw [if_neg hloop] at h
              cases ho : AddressesF env ro answers n c (Fqdn ctgt)
                  (p ++ [RR.cname cn ct ctgt]) with
              | none =>
                rw [ho] at h
                exact Option.noConfusion h
              | some r =>
                obtain ⟨ch, cok, ctr⟩ := r
                rw [ho] at h
                dsimp only at h
                have hctr : ∀ u ∈ ctr, UpCallOk u :=
                  ih c (Fqdn ctgt) (p ++ [RR.cname cn ct ctgt]) (ch, cok, ctr) ho
                by_cases hs : cok = true ∧ 0 < ch.length
                · rw [if_pos hs] at h
                  cases h
                  exact hctr
                · rw [if_neg hs] at h
                  exact hstep ctr hctr h

/-! Claim theorems. -/

/-- C9: resolution terminates on every input: for every environment,
upstream oracle, store, client key, fqdn and ancestry chain, fuel 22 is
enough for `AddressesF` to return, and every larger fuel returns the same
result — the same-tier CNAME recursion strictly grows the chain (bounded
by the depth guard at 10) and the default-tier fallback is taken at most
once, as captured by `addrMeasure`. -/
theorem C9_terminates (env : Env) (ro : String → String → Option (List RR))
    (answers : Answers) (clientIp fqdn : String) (cnameParents : List RR) :
    ∃ res, AddressesF env ro answers 22 clientIp fqdn cnameParents = some res ∧
      ∀ fuel, 22 ≤ fuel →
        AddressesF env ro answers fuel clientIp fqdn cnameParents = some res := by
  have hm : addrMeasure clientIp cnameParents < 22 :=
    Nat.lt_succ_of_le (addrMeasure_le clientIp cnameParents)
  have hs := AddressesF_isSome env ro answers 22 clientIp fqdn cnameParents hm
  cases ho : AddressesF env ro answers 22 clientIp fqdn cnameParents with
  | none => rw [ho] at hs; exact absurd hs (by simp)
  | some res =>
    exact ⟨res, rfl, fun fuel hf =>
      AddressesF_mono_le env ro answers 22 fuel clientIp fqdn cnameParents res hf ho⟩

/-- C9 witness: the bound instantiated at a concrete input. -/
theorem C9_terminates_witness :
    ∃ res, AddressesF env0 ro0 emptyAns 22 DEFAULT_KEY "a." [] = some res ∧
      ∀ fuel, 22 ≤ fuel → AddressesF env0 ro0 emptyAns fuel DEFAULT_KEY "a." [] = some res :=
  C9_terminates env0 ro0 emptyAns DEFAULT_KEY "a." []

/-- C1: the depth guard fails resolution as soon as 10 CNAME records have
been traversed, for every client key, store and name; concretely, a chain
of exactly 10 distinct CNAME hops with no terminal A record (and no
upstream resolvers) resolves to `(nil, false)`, while a chain of 9 hops
whose final target has an A entry in the same tier resolves to
`found = true`. -/
theorem C1_depth_guard :
    (∀ (env : Env) (ro : String → String → Option (List RR)) (answers : Answers)
        (fuel : Nat) (clientIp fqdn : String) (cnameParents : List RR),
        10 ≤ cnameParents.length →
        AddressesF env ro answers (fuel + 1) clientIp fqdn cnameParents =
          some ([], false, [])) ∧
    Addresses env0 ro0 chain10 DEFAULT_KEY "c0." [] = ([], false) ∧
    (Addresses env0 ro0 chain9 DEFAULT_KEY "c0." []).2 = true := by
  refine ⟨?_, by decide, by decide⟩
  intro env ro answers fuel c f p hp
  rw [AddressesF.eq_2, if_pos hp]

/-- C1 witness: the depth guard applied to a concrete chain of 10
already-traversed records. -/
theorem C1_depth_guard_witness :
    AddressesF env0 ro0 chain9 1 DEFAULT_KEY "c0."
      (List.replicate 10 (RR.cname "a." 0 "b.")) = some ([], false, []) :=
  C1_depth_guard.1 env0 ro0 chain9 0 DEFAULT_KEY "c0."
    (List.replicate 10 (RR.cname "a." 0 "b.")) (by decide)

/-- C2: a CNAME entry whose target normalizes to the query name itself fails
resolution immediately with `(nil, false)` (and no upstream invocation),
whatever A entries, default-tier data or upstream resolvers exist. -/
theorem C2_self_loop (env : Env) (ro : String → String → Option (List RR))
    (answers : Answers) (fuel : Nat) (clientIp fqdn : String) (cnameParents : List RR)
    (client : ClientAnswers) (res : RecordCname)
    (h1 : answers clientIp = some client)
    (h2 : client.Cname (Fqdn fqdn) = some res)
    (h3 : Fqdn res.Answer = Fqdn fqdn) :
    AddressesF env ro answers (fuel + 1) clientIp fqdn cnameParents =
      some ([], false, []) ∧
    Addresses env ro answers clientIp fqdn cnameParents = ([], false) := by
  have key : ∀ m : Nat, AddressesF env ro answers (m + 1) clientIp fqdn cnameParents =
      some ([], false, []) := by
    intro m
    rw [AddressesF.eq_2]
    by_cases hg : 10 ≤ cnameParents.length
    · rw [if_pos hg]
    · rw [if_neg hg]
      rw [Matching_cname_some env answers clientIp (Fqdn fqdn) client res h1 h2]
      dsimp only
      rw [if_pos h3]
  refine ⟨key fuel, ?_⟩
  unfold Addresses
  rw [show AddressesF env ro answers 22 clientIp fqdn cnameParents =
    some ([], false, []) from key 21]

/-- C2 witness: the self-loop `x. -> x.` in `storeC2` fails although the
same tier has an A entry for `x.`, a recurse list, and the upstream oracle
would succeed. -/
theorem C2_self_loop_witness :
    AddressesF env0 ro1 storeC2 22 DEFAULT_KEY "x." [] = some ([], false, []) ∧
    Addresses env0 ro1 storeC2 DEFAULT_KEY "x." [] = ([], false) :=
  C2_self_loop env0 ro1 storeC2 21 DEFAULT_KEY "x." []
    ⟨["8.8.8.8"], fun n => if n = "x." then some ⟨none, ["1.2.3.4"]⟩ else none,
      fun n => if n = "x." then some ⟨none, "x."⟩ else none⟩
    ⟨none, "x."⟩ rfl (by decide) (by decide)

/-- C8: loading the answers file from a missing path returns an empty store
and no error; any other read failure is an I/O error; a document the JSON
decoder rejects is a parse error, and a document it accepts loads. -/
theorem C8_load (unmarshal : String → Option Answers) (d : String) (a : Answers) :
    (ReadAnswersFile unmarshal .errNotExist = .ok (fun _ => none)) ∧
    (ReadAnswersFile unmarshal .errOther = .error .ioError) ∧
    (unmarshal d = some a → ReadAnswersFile unmarshal (.ok d) = .ok a) ∧
    (unmarshal d = none → ReadAnswersFile unmarshal (.ok d) = .error .parseError) := by
  refine ⟨rfl, rfl, fun h => ?_, fun h => ?_⟩
  · simp [ReadAnswersFile, h]
  · simp [ReadAnswersFile, h]

/-- C8 witness: the three outcomes at a concrete decoder. -/
theorem C8_load_witness :
    ReadAnswersFile (fun _ => some emptyAns) .errNotExist = .ok (fun _ => none) ∧
    ReadAnswersFile (fun _ => some emptyAns) .errOther = .error .ioError ∧
    ReadAnswersFile (fun _ => some emptyAns) (.ok "doc") = .ok emptyAns ∧
    ReadAnswersFile (fun _ => none) (.ok "doc") = .error .parseError :=
  ⟨(C8_load (fun _ => some emptyAns) "doc" emptyAns).1,
   (C8_load (fun _ => some emptyAns) "doc" emptyAns).2.1,
   (C8_load (fun _ => some emptyAns) "doc" emptyAns).2.2.1 rfl,
   (C8_load (fun _ => none) "doc" emptyAns).2.2.2 rfl⟩

/-- C10: configured address strings are never validated: an A entry with a
non-empty address list yields `found = true` with one record per configured
string, an unparseable string producing a record whose address is `none`
(a nil `net.IP`) rather than being skipped. -/
theorem C10_unvalidated (env : Env) (answers : Answers) (clientIp fqdn : String)
    (client : ClientAnswers) (res : RecordA) (s : String)
    (h1 : answers clientIp = some client) (h2 : client.A fqdn = some res)
    (h3 : 0 < res.Answer.length) (h4 : s ∈ res.Answer) (h5 : env.parseIP s = none) :
    (Matching env answers TypeA clientIp fqdn).2 = true ∧
    (Matching env answers TypeA clientIp fqdn).1.length = res.Answer.length ∧
    RR.a fqdn (res.Ttl.getD env.defaultTtl) none ∈
      (Matching env answers TypeA clientIp fqdn).1 := by
  rw [Matching_a_some env answers clientIp fqdn client res h1 h2 h3]
  refine ⟨rfl, ?_, ?_⟩
  · dsimp only
    rw [shuffle_length, List.length_map]
  · dsimp only
    rw [mem_shuffle]
    have he : RR.a fqdn (res.Ttl.getD env.defaultTtl) none =
        (fun t => RR.a fqdn (res.Ttl.getD env.defaultTtl) (env.parseIP t)) s := by
      simp [h5]
    rw [he]
    exact List.mem_map_of_mem _ h4

/-- C10 witness: `storeC10` lists `"1.2.3.4"` and the unparseable
`"bogus"`; the lookup succeeds with two records, one carrying a nil
address. -/
theorem C10_unvalidated_witness :
    (Matching envP storeC10 TypeA DEFAULT_KEY "x.").2 = true ∧
    (Matching envP storeC10 TypeA DEFAULT_KEY "x.").1.length = 2 ∧
    RR.a "x." 42 none ∈ (Matching envP storeC10 TypeA DEFAULT_KEY "x.").1 :=
  C10_unvalidated envP storeC10 DEFAULT_KEY "x."
    ⟨[], fun n => if n = "x." then some ⟨some 42, ["1.2.3.4", "bogus"]⟩ else none,
      fun _ => none⟩
    ⟨some 42, ["1.2.3.4", "bogus"]⟩ "bogus" rfl (by decide) (by decide) (by decide)
    (by decide)

/-- C3: a matching non-loop CNAME whose target resolution fails (or returns
no records) does not fail the query: the engine falls through to the direct
A lookup for the original name in the same tier, and returns those A
records (shuffled) with `found = true` when they exist. -/
theorem C3_cname_fallthrough (env : Env) (ro : String → String → Option (List RR))
    (answers : Answers) (fuel : Nat) (clientIp fqdn : String) (cnameParents : List RR)
    (client : ClientAnswers) (res : RecordCname) (children : List RR) (cok : Bool)
    (ctr : List UpCall) (ares : List RR)
    (h1 : answers clientIp = some client)
    (h2 : client.Cname (Fqdn fqdn) = some res)
    (h3 : ¬ Fqdn res.Answer = Fqdn fqdn)
    (hp : cnameParents.length < 10)
    (hrec : AddressesF env ro answers fuel clientIp (Fqdn res.Answer)
      (cnameParents ++ [RR.cname (Fqdn fqdn) (res.Ttl.getD env.defaultTtl) res.Answer]) =
      some (children, cok, ctr))
    (hfail : cok = false ∨ children = [])
    (hA : Matching env answers TypeA clientIp (Fqdn fqdn) = (ares, true))
    (hlen : 0 < ares.length) :
    AddressesF env ro answers (fuel + 1) clientIp fqdn cnameParents =
      some (shuffle env.rand ares, true, ctr) := by
  rw [AddressesF.eq_2, if_neg (Nat.not_le.mpr hp)]
  rw [Matching_cname_some env answers clientIp (Fqdn fqdn) client res h1 h2]
  dsimp only
  rw [if_neg h3, hrec]
  dsimp only
  rw [if_neg (show ¬ (cok = true ∧ 0 < children.length) by
    rcases hfail with h | h <;> simp [h])]
  simp only [addrAStep]
  rw [hA]
  rw [if_pos (show (ares, true).2 = true ∧ 0 < (ares, true).1.length from ⟨rfl, hlen⟩)]

/-- C3 witness: in `storeC3` the CNAME `x. -> y.` cannot be resolved, yet
the query for `x.` returns the A entry configured at `x.` itself. -/
theorem C3_cname_fallthrough_witness :
    AddressesF env0 ro0 storeC3 22 DEFAULT_KEY "x." [] =
      some (shuffle env0.rand [RR.a "x." 600 none], true,
        [⟨DEFAULT_KEY, "y.", [], 1⟩]) :=
  C3_cname_fallthrough env0 ro0 storeC3 21 DEFAULT_KEY "x." []
    ⟨[], fun n => if n = "x." then some ⟨none, ["1.2.3.4"]⟩ else none,
      fun n => if n = "x." then some ⟨none, "y."⟩ else none⟩
    ⟨none, "y."⟩ [] false [⟨DEFAULT_KEY, "y.", [], 1⟩] [RR.a "x." 600 none]
    rfl (by decide) (by decide) (by decide) (by decide) (Or.inl rfl) (by decide)
    (by decide)

/-- C4: a client key with no entry in the store resolves exactly as the
reserved default key does, the ancestry chain being reset to empty by the
fallback. -/
theorem C4_client_miss (env : Env) (ro : String → String → Option (List RR))
    (answers : Answers) (clientIp fqdn : String)
    (h : answers clientIp = none) :
    Addresses env ro answers clientIp fqdn [] =
      Addresses env ro answers DEFAULT_KEY fqdn [] := by
  by_cases hc : clientIp = DEFAULT_KEY
  · rw [hc]
  · have hs : addrMeasure DEFAULT_KEY ([] : List RR) < 21 := by
      rw [addrMeasure_default_nil]; omega
    have h21 := AddressesF_isSome env ro answers 21 DEFAULT_KEY (Fqdn fqdn) [] hs
    cases ho : AddressesF env ro answers 21 DEFAULT_KEY (Fqdn fqdn) [] with
    | none => rw [ho] at h21; exact absurd h21 (by simp)
    | some r3 =>
      obtain ⟨r, ok2, tr2⟩ := r3
      have hL : AddressesF env ro answers 22 clientIp fqdn [] =
          some (r, ok2, [] ++ tr2) := by
        rw [show (22 : Nat) = 21 + 1 from rfl, AddressesF.eq_2]
        rw [if_neg (by decide : ¬ (10 ≤ ([] : List RR).length))]
        rw [Matching_client_none env answers TypeCNAME clientIp (Fqdn fqdn) h]
        dsimp only
        simp only [addrAStep]
        rw [Matching_client_none env answers TypeA clientIp (Fqdn fqdn) h]
        rw [if_neg (by simp)]
        rw [if_pos hc]
        rw [ho]
      have hR : AddressesF env ro answers 22 DEFAULT_KEY fqdn [] =
          some (r, ok2, tr2) := by
        rw [show (22 : Nat) = 21 + 1 from rfl, AddressesF_norm]
        exact AddressesF_mono env ro answers 21 DEFAULT_KEY (Fqdn fqdn) [] (r, ok2, tr2) ho
      unfold Addresses
      rw [hL, hR]

/-- C4 witness: the unknown client `9.9.9.9` gets the default tier's
answers for `chain9`. -/
theorem C4_client_miss_witness :
    Addresses env0 ro0 chain9 "9.9.9.9" "c0." [] =
      Addresses env0 ro0 chain9 DEFAULT_KEY "c0." [] :=
  C4_client_miss env0 ro0 chain9 "9.9.9.9" "c0." rfl

/-- C6: the upstream delegate is only ever invoked at the reserved default
key with a non-empty ancestry chain (first conjunct, over the ghost trace),
and consequently a resolution started with an empty chain that matches no
CNAME entry in either tier never invokes it, whatever recurse lists are
configured (second conjunct). -/
theorem C6_upstream_gated :
    (∀ (env : Env) (ro : String → String → Option (List RR)) (answers : Answers)
        (fuel : Nat) (clientIp fqdn : String) (cnameParents : List RR) (res : AddrRes),
        AddressesF env ro answers fuel clientIp fqdn cnameParents = some res →
        ∀ u ∈ res.2.2, u.client = DEFAULT_KEY ∧ 0 < u.depth) ∧
    (∀ (env : Env) (ro : String → String → Option (List RR)) (answers : Answers)
        (fuel : Nat) (clientIp fqdn : String) (res : AddrRes),
        Matching env answers TypeCNAME clientIp (Fqdn fqdn) = ([], false) →
        Matching env answers TypeCNAME DEFAULT_KEY (Fqdn fqdn) = ([], false) →
        AddressesF env ro answers (fuel + 2) clientIp fqdn [] = some res →
        res.2.2 = []) := by
  constructor
  · intro env ro answers fuel c f p res h u hu
    exact AddressesF_trace env ro answers fuel c f p res h u hu
  · intro env ro answers fuel c f res hm1 hm2 hres
    rw [AddressesF.eq_2] at hres
    rw [if_neg (by decide : ¬ (10 ≤ ([] : List RR).length))] at hres
    rw [hm1] at hres
    dsimp only at hres
    simp only [addrAStep] at hres
    by_cases hA : (Matching env answers TypeA c (Fqdn f)).2 = true ∧
        0 < (Matching env answers TypeA c (Fqdn f)).1.length
    · rw [if_pos hA] at hres
      cases hres
      rfl
    · rw [if_neg hA] at hres
      by_cases hc : c ≠ DEFAULT_KEY
      · rw [if_pos hc] at hres
        rw [AddressesF.eq_2] at hres
        rw [if_neg (by decide : ¬ (10 ≤ ([] : List RR).length))] at hres
        rw [Fqdn_idem] at hres
        rw [hm2] at hres
        dsimp only at hres
        simp only [addrAStep] at hres
        by_cases hA2 : (Matching env answers TypeA DEFAULT_KEY (Fqdn f)).2 = true ∧
            0 < (Matching env answers TypeA DEFAULT_KEY (Fqdn f)).1.length
        · rw [if_pos hA2] at hres
          dsimp only at hres
          cases hres
          rfl
        · rw [if_neg hA2] at hres
          rw [if_neg (by simp : ¬ (DEFAULT_KEY ≠ DEFAULT_KEY))] at hres
          rw [if_neg (by decide : ¬ (0 < ([] : List RR).length))] at hres
          dsimp only at hres
          cases hres
          rfl
      · rw [if_neg hc] at hres
        rw [if_neg (by decide : ¬ (0 < ([] : List RR).length))] at hres
        cases hres
        rfl

/-- C6 witness: the gating applied to the one upstream call of `storeC3`,
and the no-call consequence for a CNAME-free store. -/
theorem C6_upstream_gated_witness :
    (∀ u ∈ ([⟨DEFAULT_KEY, "y.", [], 1⟩] : List UpCall),
      u.client = DEFAULT_KEY ∧ 0 < u.depth) ∧
    (([], false, []) : AddrRes).2.2 = ([] : List UpCall) :=
  ⟨C6_upstream_gated.1 env0 ro0 storeC3 22 DEFAULT_KEY "x." []
      (shuffle env0.rand [RR.a "x." 600 none], true, [⟨DEFAULT_KEY, "y.", [], 1⟩])
      (by decide),
   C6_upstream_gated.2 env0 ro0 emptyAns 20 "9.9.9.9" "foo." ([], false, [])
      (by decide) (by decide) (by decide)⟩

/-- C7: `shuffle` permutes its input for every randomness source (first
conjunct); A records returned by resolution are passed through `shuffle`
(second conjunct); a CNAME record returned from a successful chain is
prepended unshuffled at the head of the result (third conjunct). -/
theorem C7_shuffle :
    (∀ (rand : Nat → Nat) (l : List RR), (shuffle rand l).Perm l) ∧
    (∀ (env : Env) (ro : String → String → Option (List RR)) (answers : Answers)
        (fuel : Nat) (clientIp fqdn : String) (cnameParents : List RR) (ares : List RR),
        cnameParents.length < 10 →
        Matching env answers TypeCNAME clientIp (Fqdn fqdn) = ([], false) →
        Matching env answers TypeA clientIp (Fqdn fqdn) = (ares, true) →
        0 < ares.length →
        AddressesF env ro answers (fuel + 1) clientIp fqdn cnameParents =
          some (shuffle env.rand ares, true, [])) ∧
    (∀ (env : Env) (ro : String → String → Option (List RR)) (answers : Answers)
        (fuel : Nat) (clientIp fqdn : String) (cnameParents : List RR)
        (client : ClientAnswers) (res : RecordCname) (children : List RR)
        (ctr : List UpCall),
        cnameParents.length < 10 →
        answers clientIp = some client →
        client.Cname (Fqdn fqdn) = some res →
        ¬ Fqdn res.Answer = Fqdn fqdn →
        AddressesF env ro answers fuel clientIp (Fqdn res.Answer)
          (cnameParents ++
            [RR.cname (Fqdn fqdn) (res.Ttl.getD env.defaultTtl) res.Answer]) =
          some (children, true, ctr) →
        0 < children.length →
        AddressesF env ro answers (fuel + 1) clientIp fqdn cnameParents =
          some (RR.cname (Fqdn fqdn) (res.Ttl.getD env.defaultTtl) res.Answer :: children,
            true, ctr)) := by
  refine ⟨shuffle_perm, ?_, ?_⟩
  · intro env ro answers fuel c f p ares hp hm hA hlen
    rw [AddressesF.eq_2, if_neg (Nat.not_le.mpr hp), hm]
    dsimp only
    simp only [addrAStep]
    rw [hA]
    rw [if_pos (show (ares, true).2 = true ∧ 0 < (ares, true).1.length from ⟨rfl, hlen⟩)]
  · intro env ro answers fuel c f p client res children ctr hp h1 h2 h3 hrec hlen
    rw [AddressesF.eq_2, if_neg (Nat.not_le.mpr hp)]
    rw [Matching_cname_some env answers c (Fqdn f) client res h1 h2]
    dsimp only
    rw [if_neg h3, hrec]
    dsimp only
    rw [if_pos (show true = true ∧ 0 < children.length from ⟨rfl, hlen⟩)]

/-- C7 witness: a concrete two-element shuffle permutation, the shuffled A
answer for `c9.` in `chain9`, and the CNAME-headed answer for `c8.`. -/
theorem C7_shuffle_witness :
    (shuffle (fun _ => 0) [RR.a "q." 1 none, RR.a "r." 1 none]).Perm
      [RR.a "q." 1 none, RR.a "r." 1 none] ∧
    AddressesF env0 ro0 chain9 22 DEFAULT_KEY "c9." [] =
      some (shuffle env0.rand [RR.a "c9." 600 none], true, []) ∧
    AddressesF env0 ro0 chain9 22 DEFAULT_KEY "c8." [] =
      some (RR.cname "c8." 600 "c9." :: [RR.a "c9." 600 none], true, []) :=
  ⟨C7_shuffle.1 (fun _ => 0) [RR.a "q." 1 none, RR.a "r." 1 none],
   C7_shuffle.2.1 env0 ro0 chain9 21 DEFAULT_KEY "c9." [] [RR.a "c9." 600 none]
     (by decide) (by decide) (by decide) (by decide),
   C7_shuffle.2.2 env0 ro0 chain9 21 DEFAULT_KEY "c8." []
     ⟨[], fun n => if n = "c9." then some ⟨none, ["1.2.3.4"]⟩ else none,
       cnameTable [("c0.", "c1."), ("c1.", "c2."), ("c2.", "c3."), ("c3.", "c4."),
         ("c4.", "c5."), ("c5.", "c6."), ("c6.", "c7."), ("c7.", "c8."),
         ("c8.", "c9.")]⟩
     ⟨none, "c9."⟩ [RR.a "c9." 600 none] []
     (by decide) rfl (by decide) (by decide) (by decide) (by decide)⟩

/-- C5 counterexample: in the spec's own example store the single upstream
invocation carries the host list `["8.8.8.8", "8.8.8.8"]` — `RecurseHosts`
appends the default tier's recurse list after the client-specific list even
when the client key is already the default key — not the claimed
`["8.8.8.8"]`. -/
theorem C5_counterexample :
    AddressesF env0 ro0 store5 22 DEFAULT_KEY "website." [] =
      some ([], false, [⟨DEFAULT_KEY, "www.", ["8.8.8.8", "8.8.8.8"], 1⟩]) ∧
    RecurseHosts store5 DEFAULT_KEY = ["8.8.8.8", "8.8.8.8"] ∧
    (["8.8.8.8", "8.8.8.8"] : List String) ≠ ["8.8.8.8"] := by
  refine ⟨by decide, by decide, by decide⟩

/-- C5 (amended): resolving `website.` against `store5` invokes the
upstream delegate exactly once, for `www.`, with the ordered host list
`["8.8.8.8", "8.8.8.8"]` (the default tier's recurse list twice, because
`RecurseHosts` concatenates the client-specific list — here the default
tier itself — with the default tier's list), whatever the delegate
answers; and `RecurseHosts` is that concatenation in general. -/
theorem C5_upstream_delegation (ro : String → String → Option (List RR)) :
    (∃ r ok, AddressesF env0 ro store5 22 DEFAULT_KEY "website." [] =
      some (r, ok, [⟨DEFAULT_KEY, "www.", ["8.8.8.8", "8.8.8.8"], 1⟩])) ∧
    (∀ (answers : Answers) (clientIp : String),
      RecurseHosts answers clientIp =
        recurseHostsFor answers clientIp ++ recurseHostsFor answers DEFAULT_KEY) := by
  constructor
  · have e1 : AddressesF env0 ro store5 22 DEFAULT_KEY "website." [] =
        (match AddressesF env0 ro store5 21 DEFAULT_KEY "www."
            [RR.cname "website." 600 "www."] with
          | none => none
          | some (children, cok, ctr) =>
            if cok = true ∧ 0 < children.length then
              some (RR.cname "website." 600 "www." :: children, true, ctr)
            else
              addrAStep env0 ro store5 DEFAULT_KEY "website." []
                (fun _ => AddressesF env0 ro store5 21 DEFAULT_KEY "website." []) ctr) :=
      rfl
    have e2 : AddressesF env0 ro store5 21 DEFAULT_KEY "www."
          [RR.cname "website." 600 "www."] =
        (match ResolveTryAll ro "www." ["8.8.8.8", "8.8.8.8"] with
          | some ans =>
            some (ans, true, [⟨DEFAULT_KEY, "www.", ["8.8.8.8", "8.8.8.8"], 1⟩])
          | none =>
            some ([], false, [⟨DEFAULT_KEY, "www.", ["8.8.8.8", "8.8.8.8"], 1⟩])) :=
      rfl
    rw [e1, e2]
    rcases hR : ResolveTryAll ro "www." ["8.8.8.8", "8.8.8.8"] with _ | ans
    · refine ⟨[], false, ?_⟩
      dsimp only
      rw [if_neg (show ¬ (false = true ∧ 0 < ([] : List RR).length) by simp)]
      rfl
    · cases ans with
      | nil =>
        refine ⟨[], false, ?_⟩
        dsimp only
        rw [if_neg (show ¬ (true = true ∧ 0 < ([] : List RR).length) by simp)]
        rfl
      | cons a1 arest =>
        refine ⟨RR.cname "website." 600 "www." :: a1 :: arest, true, ?_⟩
        dsimp only
        rw [if_pos (show true = true ∧ 0 < (a1 :: arest).length from ⟨rfl, by simp⟩)]
  · intro answers clientIp
    simp only [RecurseHosts]
    rcases hx : recurseHostsFor answers clientIp with _ | ⟨y, ys⟩ <;>
      rcases hy : recurseHostsFor answers DEFAULT_KEY with _ | ⟨z, zs⟩ <;>
        simp

end RancherDns
